import Mathlib

/-!
Verification development for the libparistraceroute core: the Event
component (`event.c`) and the Layer component (`layer.h`).

The Event component is embedded directly from `event.c`.  Hook function
pointers (`data_ref`, `data_free`) are modelled by their presence (a
`Bool`, `true` iff the pointer is non-NULL) together with an explicit
trace of hook invocations (a `List hook_call`), each invocation
recording which hook fired and the payload value it was applied to.
`malloc` success is an explicit parameter `allocOk` of the model.
Opaque pointers (`void *`, issuer) are modelled as `Option Nat`
(`none` = NULL).
-/

/-- One observable hook invocation: which caller-supplied hook fired and
on which payload value. -/
inductive hook_call where
  | retain (d : Nat)
  | release (d : Nat)
deriving DecidableEq, Repr

/-- The `event_t` structure, as populated by `event_create` in `event.c`:
the stored fields are `type`, `data`, `issuer` and the release hook
`data_free`.  The retain hook `data_ref` is NOT stored (event.c never
assigns it to the struct). -/
structure event_t where
  type : Nat
  data : Option Nat
  issuer : Option Nat
  data_free : Bool
deriving DecidableEq, Repr

/-- `event_create` from `event.c`.  `allocOk` models whether `malloc`
succeeds.  Returns the produced event (`none` = NULL on failure) and
the trace of hook invocations performed during the call.  Mirrors the
source: on success the fields are stored and `data_ref(data)` is called
iff `data && data_ref`; on failure `data_free(data)` is called iff
`data && data_free`. -/
def event_create (allocOk : Bool) (type : Nat) (data : Option Nat)
    (issuer : Option Nat) (data_ref : Bool) (data_free : Bool) :
    Option event_t × List hook_call :=
  if allocOk then
    (some { type := type, data := data, issuer := issuer, data_free := data_free },
     match data with
     | some d => if data_ref then [hook_call.retain d] else []
     | none => [])
  else
    (none,
     match data with
     | some d => if data_free then [hook_call.release d] else []
     | none => [])

/-- `event_free` from `event.c`: no-op on NULL; otherwise calls
`data_free(data)` iff `event->data && event->data_free`, then frees the
envelope.  Returns the trace of hook invocations performed. -/
def event_free (event : Option event_t) : List hook_call :=
  match event with
  | none => []
  | some e =>
    match e.data with
    | some d => if e.data_free then [hook_call.release d] else []
    | none => []

/-- Claim C1: when envelope allocation fails and `data` is present and a
release hook is present, the call invokes the release hook on `data`
exactly once, never invokes the retain hook, and produces no Event:
the whole result is `(none, [release d])`, whether or not a retain hook
was supplied. -/
theorem event_create_alloc_failure (type d : Nat) (issuer : Option Nat)
    (data_ref : Bool) :
    event_create false type (some d) issuer data_ref true
      = (none, [hook_call.release d]) := rfl

/-- Claim C2: full lifecycle of an Event created successfully with a
present payload and both hooks supplied: the creation phase performs
exactly the single retain call and the free phase performs exactly the
single release call, so across create → free there is exactly one
retain, exactly one release, the retain precedes the release, and the
release never occurs before `event_free` is invoked. -/
theorem event_lifecycle_retain_release (type d : Nat) (issuer : Option Nat) :
    (event_create true type (some d) issuer true true).2 = [hook_call.retain d]
    ∧ event_free (event_create true type (some d) issuer true true).1
        = [hook_call.release d] := ⟨rfl, rfl⟩

/-- Claim C3: on successful allocation, `event_create` stores `type`,
`data`, `issuer` and the release hook in the returned Event, and when
`data` is present and a retain hook is present it invokes the retain
hook on `data` exactly once, synchronously, before returning (the
call's trace is exactly that one retain invocation). -/
theorem event_create_success_stores (type : Nat) (data : Option Nat)
    (issuer : Option Nat) (data_ref data_free : Bool) :
    (event_create true type data issuer data_ref data_free).1
      = some { type := type, data := data, issuer := issuer, data_free := data_free }
    ∧ (∀ d, data = some d → data_ref = true →
        (event_create true type data issuer data_ref data_free).2
          = [hook_call.retain d]) := by
  constructor
  · simp [event_create]
  · intro d hd hr
    subst hd; subst hr
    simp [event_create]

/-- Witness for `event_create_success_stores` at concrete inputs. -/
theorem event_create_success_stores_witness :
    (event_create true 3 (some 5) (some 9) true true).1
      = some { type := 3, data := some 5, issuer := some 9, data_free := true }
    ∧ (event_create true 3 (some 5) (some 9) true true).2 = [hook_call.retain 5] :=
  ⟨(event_create_success_stores 3 (some 5) (some 9) true true).1,
   (event_create_success_stores 3 (some 5) (some 9) true true).2 5 rfl rfl⟩

/-- Claim C4: when `data` is absent no hook is ever invoked, regardless
of whether hooks were supplied: `event_create` invokes no hook on
either the success or the failure path, `event_free` on an Event with
absent payload invokes no hook (and, returning a trace, cannot fail),
and `event_free` on an absent (NULL) Event is a no-op. -/
theorem event_absent_data_no_hooks (allocOk : Bool) (type : Nat)
    (issuer : Option Nat) (data_ref data_free : Bool) :
    (event_create allocOk type none issuer data_ref data_free).2 = []
    ∧ (∀ e : event_t, e.data = none → event_free (some e) = [])
    ∧ event_free none = [] := by
  refine ⟨?_, ?_, rfl⟩
  · cases allocOk <;> simp [event_create]
  · intro e he
    simp [event_free, he]

/-- Witness for `event_absent_data_no_hooks` at concrete inputs. -/
theorem event_absent_data_no_hooks_witness :
    event_free (some { type := 2, data := none, issuer := some 4, data_free := true }) = [] :=
  (event_absent_data_no_hooks true 2 (some 4) true true).2.1
    { type := 2, data := none, issuer := some 4, data_free := true } rfl

/-- Claim C10: an Event created successfully with a present payload, a
retain hook supplied and no release hook: the retain hook fires exactly
once during creation, `event_free` on the resulting Event invokes no
hook at all, and — since the Event never stores the retain hook — no
`event_free` call on any event whatsoever can ever emit a retain
invocation, so the retain performed at creation is never balanced by a
release. -/
theorem event_retain_only_unbalanced (type d : Nat) (issuer : Option Nat) :
    (event_create true type (some d) issuer true false).2 = [hook_call.retain d]
    ∧ event_free (event_create true type (some d) issuer true false).1 = []
    ∧ (∀ (ev : Option event_t) (x : Nat),
        (event_free ev).count (hook_call.retain x) = 0) := by
  refine ⟨rfl, rfl, ?_⟩
  intro ev x
  match ev with
  | none => rfl
  | some e =>
    match he : e.data with
    | none => simp [event_free, he]
    | some d' =>
      cases hf : e.data_free <;> simp [event_free, he, hf]

/-!
Layer component.  Only `layer.h` (declarations and doc comments) is in
the repository sources; the definitions below are therefore modelled
from the spec's description of each operation, over the `layer_t`
structure declared in `layer.h`.  The shared byte buffer viewed by a
layer is modelled as the list of bytes of the layer's segment.
-/

/-- One named field of a protocol descriptor: its name and the byte
range (offset, size in bytes) it occupies within a segment. -/
structure protofield_t where
  name : String
  offset : Nat
  size : Nat
deriving DecidableEq, Repr

/-- Modelled from the spec: a protocol descriptor (external collaborator)
supplies a name-to-byte-range resolution for field read/write and the
network byte order (big-endian) used by `set_field`/`create_field`. -/
structure protocol_t where
  name : String
  fields : List protofield_t
deriving DecidableEq, Repr

/-- A field value as passed to `layer_set_field`: a name and a numeric
value to be packed into the field's byte range. -/
structure field_t where
  name : String
  value : Nat
deriving DecidableEq, Repr

/-- The `layer_t` structure from `layer.h`: protocol descriptor (NULL
for the payload layer), the viewed segment bytes, header size and
segment size.  The extra flag `nested` is modelled from the spec: it
records whether a deeper layer is nested inside this one (state the C
code obtains from the enclosing probe; `layer_write_payload` "can only
be used if no layer is nested in the layer we're altering"). -/
structure layer_t where
  protocol : Option protocol_t
  segment : List Nat
  header_size : Nat
  segment_size : Nat
  nested : Bool
deriving DecidableEq, Repr

/-- Modelled from the spec: `layer_create` returns a Layer with no
protocol, no segment and zero sizes. -/
def layer_create : layer_t :=
  { protocol := none, segment := [], header_size := 0, segment_size := 0, nested := false }

/-- Modelled from the spec: `layer_set_protocol` associates a protocol
descriptor without altering segment or sizes. -/
def layer_set_protocol (layer : layer_t) (protocol : Option protocol_t) : layer_t :=
  { layer with protocol := protocol }

/-- Modelled from the spec: plain setter for the segment view. -/
def layer_set_segment (layer : layer_t) (segment : List Nat) : layer_t :=
  { layer with segment := segment }

/-- Modelled from the spec: plain setter, performs no validation. -/
def layer_set_segment_size (layer : layer_t) (segment_size : Nat) : layer_t :=
  { layer with segment_size := segment_size }

/-- Modelled from the spec: plain setter, performs no validation. -/
def layer_set_header_size (layer : layer_t) (header_size : Nat) : layer_t :=
  { layer with header_size := header_size }

/-- Modelled from the spec: plain getter. -/
def layer_get_segment_size (layer : layer_t) : Nat := layer.segment_size

/-- Modelled from the spec: plain getter. -/
def layer_get_header_size (layer : layer_t) : Nat := layer.header_size

/-- Modelled from the spec: plain getter. -/
def layer_get_segment (layer : layer_t) : List Nat := layer.segment

/-- Overwrite the bytes of `s` from position `off` with the bytes of
`v` (clipped to `s`'s extent); positions outside the written range keep
their old value. -/
def writeBytes (s : List Nat) (off : Nat) (v : List Nat) : List Nat :=
  (List.range s.length).map fun i =>
    if off ≤ i ∧ i < off + v.length then v.getD (i - off) 0 else s.getD i 0

/-- Read `n` bytes of `s` starting at position `off` (0 past the end). -/
def readBytes (s : List Nat) (off n : Nat) : List Nat :=
  (List.range n).map fun i => s.getD (off + i) 0

/-- Big-endian (network byte order) encoding of value `v` into `n` bytes:
most significant byte first. -/
def encodeBE : Nat → Nat → List Nat
  | 0, _ => []
  | n + 1, v => v / 256 ^ n % 256 :: encodeBE n v

/-- Big-endian (network byte order) decoding of a byte list. -/
def decodeBE (bs : List Nat) : Nat :=
  bs.foldl (fun acc b => acc * 256 + b) 0

/-- Modelled from the spec: `layer_write_payload` copies the payload's
bytes into the segment starting at byte `offset` (for the payload
layer, the payload region starts at the segment's start), growing the
owning buffer first when `offset + len(payload) > segment_size`; when a
deeper layer is nested inside the layer, it is a no-op reporting
failure. -/
def layer_write_payload (layer : layer_t) (payload : List Nat) (offset : Nat) :
    Option layer_t :=
  if layer.nested then none
  else
    let newSize := max layer.segment_size (offset + payload.length)
    let grown := layer.segment ++ List.replicate (newSize - layer.segment.length) 0
    some { layer with
      segment := writeBytes grown offset payload
      segment_size := newSize }

/-- Modelled from the spec: `layer_set_payload` is valid only when the
layer has no protocol (it is the payload layer), in which case it
replaces the layer's viewed content with the payload's bytes; on a
non-payload layer it is a no-op reporting failure. -/
def layer_set_payload (layer : layer_t) (payload : List Nat) : Option layer_t :=
  match layer.protocol with
  | some _ => none
  | none =>
    some { layer with segment := payload, segment_size := payload.length }

/-- Modelled from the spec: `layer_set_field` resolves the field's byte
range through the layer's protocol descriptor and writes the field's
value into that range of the segment, respecting the declared width
and network byte order; it fails if the layer has no protocol, the
name is unknown to the protocol, or the range falls outside
`[0, segment_size)`. -/
def layer_set_field (layer : layer_t) (field : field_t) : Option layer_t :=
  match layer.protocol with
  | none => none
  | some proto =>
    match proto.fields.find? (fun pf => pf.name == field.name) with
    | none => none
    | some pf =>
      if pf.offset + pf.size ≤ layer.segment_size then
        some { layer with
          segment := writeBytes layer.segment pf.offset (encodeBE pf.size field.value) }
      else none

/-- Modelled from the spec: `layer_create_field` reads the named field's
bytes out of the segment according to the protocol descriptor and
returns a newly allocated field value; it fails if the layer has no
protocol or the name is unknown. -/
def layer_create_field (layer : layer_t) (name : String) : Option field_t :=
  match layer.protocol with
  | none => none
  | some proto =>
    match proto.fields.find? (fun pf => pf.name == name) with
    | none => none
    | some pf =>
      some { name := name, value := decodeBE (readBytes layer.segment pf.offset pf.size) }

/-- The layer invariant of the spec's data model. -/
def layer_inv (layer : layer_t) : Prop :=
  layer.header_size ≤ layer.segment_size

theorem length_writeBytes (s : List Nat) (off : Nat) (v : List Nat) :
    (writeBytes s off v).length = s.length := by
  simp [writeBytes]

theorem getD_writeBytes (s : List Nat) (off : Nat) (v : List Nat) (i : Nat)
    (h : i < s.length) :
    (writeBytes s off v).getD i 0 =
      if off ≤ i ∧ i < off + v.length then v.getD (i - off) 0 else s.getD i 0 := by
  have h2 : i < (writeBytes s off v).length := by rw [length_writeBytes]; exact h
  rw [List.getD_eq_getElem _ _ h2]
  simp [writeBytes]

theorem length_readBytes (s : List Nat) (off n : Nat) :
    (readBytes s off n).length = n := by
  simp [readBytes]

theorem readBytes_writeBytes (s : List Nat) (off : Nat) (v : List Nat)
    (h : off + v.length ≤ s.length) :
    readBytes (writeBytes s off v) off v.length = v := by
  apply List.ext_getElem
  · simp [readBytes]
  · intro i h1 h2
    have hi : i < v.length := h2
    have h3 : (readBytes (writeBytes s off v) off v.length)[i]
        = (writeBytes s off v).getD (off + i) 0 := by
      simp [readBytes]
    rw [h3, getD_writeBytes _ _ _ _ (by omega)]
    rw [if_pos ⟨by omega, by omega⟩]
    rw [Nat.add_sub_cancel_left]
    exact List.getD_eq_getElem _ _ hi

theorem encodeBE_length (n v : Nat) : (encodeBE n v).length = n := by
  induction n generalizing v with
  | zero => rfl
  | succ n ih => simp [encodeBE, ih]

theorem encodeBE_foldl (n v a : Nat) :
    (encodeBE n v).foldl (fun acc b => acc * 256 + b) a = a * 256 ^ n + v % 256 ^ n := by
  induction n generalizing a with
  | zero => simp [encodeBE, Nat.mod_one]
  | succ n ih =>
    rw [encodeBE, List.foldl_cons, ih]
    have hm : v % 256 ^ (n + 1) = v % 256 ^ n + 256 ^ n * (v / 256 ^ n % 256) := by
      rw [pow_succ]
      exact Nat.mod_mul
    rw [hm]; ring

theorem decodeBE_encodeBE (n v : Nat) (h : v < 256 ^ n) :
    decodeBE (encodeBE n v) = v := by
  unfold decodeBE
  rw [encodeBE_foldl]
  simp [Nat.mod_eq_of_lt h]

/-- Claim C5: `layer_write_payload` on a layer with no nested deeper
layer copies the payload's bytes into the segment starting at byte
`offset` (the payload region starts at the segment's start for the
payload layer), growing the owning buffer first exactly when
`offset + len(payload) > segment_size` (the new segment size is the
maximum of the two, and bytes outside the written range keep their old
values); on a layer that has a nested deeper layer the call is a no-op
reporting failure, which in this pure embedding leaves every byte of
the layer unchanged. -/
theorem layer_write_payload_spec (layer : layer_t) (payload : List Nat)
    (offset : Nat) (l' : layer_t)
    (hwf : layer.segment.length = layer.segment_size) :
    (layer.nested = true → layer_write_payload layer payload offset = none)
    ∧ (layer.nested = false → (layer_write_payload layer payload offset).isSome = true)
    ∧ (layer_write_payload layer payload offset = some l' →
        readBytes l'.segment offset payload.length = payload
        ∧ l'.segment_size = max layer.segment_size (offset + payload.length)
        ∧ l'.segment.length = l'.segment_size
        ∧ l'.header_size = layer.header_size
        ∧ l'.protocol = layer.protocol
        ∧ ∀ i, i < layer.segment_size → (i < offset ∨ offset + payload.length ≤ i) →
            l'.segment.getD i 0 = layer.segment.getD i 0) := by
  refine ⟨?_, ?_, ?_⟩
  · intro hn; simp [layer_write_payload, hn]
  · intro hn; simp [layer_write_payload, hn]
  · intro hs
    unfold layer_write_payload at hs
    by_cases hn : layer.nested
    · simp [hn] at hs
    · simp only [hn, if_false, Bool.false_eq_true] at hs
      have hl' := Option.some.inj hs
      subst hl'
      have hglen : (layer.segment ++
          List.replicate (max layer.segment_size (offset + payload.length)
            - layer.segment.length) 0).length
          = max layer.segment_size (offset + payload.length) := by
        rw [List.length_append, List.length_replicate, hwf]; omega
      refine ⟨?_, rfl, ?_, rfl, rfl, ?_⟩
      · have := readBytes_writeBytes
          (layer.segment ++ List.replicate
            (max layer.segment_size (offset + payload.length) - layer.segment.length) 0)
          offset payload (by rw [hglen]; omega)
        exact this
      · simp [length_writeBytes, hglen]
      · intro i hi hout
        have hi2 : i < (layer.segment ++ List.replicate
            (max layer.segment_size (offset + payload.length) - layer.segment.length) 0).length := by
          rw [hglen]; omega
        rw [getD_writeBytes _ _ _ _ hi2]
        rw [if_neg (by omega)]
        exact List.getD_append _ _ _ _ (by omega)

/-- Witness for `layer_write_payload_spec`: writing `[9, 9]` at offset 1
into a payload layer viewing `[1, 2, 3]` yields a segment whose bytes
at offset 1 read back as `[9, 9]`. -/
theorem layer_write_payload_spec_witness :
    readBytes (layer_t.mk none [1, 9, 9] 0 3 false).segment 1 2 = [9, 9] :=
  ((layer_write_payload_spec (layer_t.mk none [1, 2, 3] 0 3 false) [9, 9] 1
    (layer_t.mk none [1, 9, 9] 0 3 false) rfl).2.2 (by decide)).1

/-- Claim C6: `layer_set_payload` on a layer whose protocol is present
(a non-payload layer) is a no-op reporting failure (in this pure
embedding the layer value is untouched); it is valid exactly when the
protocol is absent, in which case it succeeds and replaces the layer's
viewed content with the payload's bytes (segment becomes the payload,
segment size its length, and the layer stays a payload layer). -/
theorem layer_set_payload_spec (layer : layer_t) (payload : List Nat) :
    (∀ p, layer.protocol = some p → layer_set_payload layer payload = none)
    ∧ (layer.protocol = none →
        Option.map (fun l => l.segment) (layer_set_payload layer payload) = some payload
        ∧ Option.map (fun l => l.segment_size) (layer_set_payload layer payload)
            = some payload.length
        ∧ Option.map (fun l => l.protocol) (layer_set_payload layer payload)
            = some none) := by
  constructor
  · intro p hp; simp [layer_set_payload, hp]
  · intro hp; simp [layer_set_payload, hp]

/-- Witness for `layer_set_payload_spec`: fails on a layer carrying a
protocol; replaces the content of a payload layer. -/
theorem layer_set_payload_spec_witness :
    layer_set_payload (layer_t.mk (some (protocol_t.mk "udp" [])) [0, 0] 2 2 false) [7] = none
    ∧ Option.map (fun l => l.segment)
        (layer_set_payload (layer_t.mk none [0, 0] 0 2 false) [7]) = some [7] :=
  ⟨(layer_set_payload_spec (layer_t.mk (some (protocol_t.mk "udp" [])) [0, 0] 2 2 false) [7]).1
      (protocol_t.mk "udp" []) rfl,
   ((layer_set_payload_spec (layer_t.mk none [0, 0] 0 2 false) [7]).2 rfl).1⟩

/-- Claim C7: `layer_set_field` fails exactly when the layer has no
protocol, the field's name is unknown to the protocol, or the field's
byte range falls outside `[0, segment_size)`; in this pure embedding a
failing call returns `none` and the caller's layer value is left
untouched, so no partial mutation occurs on failure. -/
theorem layer_set_field_fail_iff (layer : layer_t) (field : field_t) :
    layer_set_field layer field = none ↔
      layer.protocol = none
      ∨ (∃ p, layer.protocol = some p
          ∧ p.fields.find? (fun pf => pf.name == field.name) = none)
      ∨ (∃ p pf, layer.protocol = some p
          ∧ p.fields.find? (fun pf => pf.name == field.name) = some pf
          ∧ layer.segment_size < pf.offset + pf.size) := by
  cases hp : layer.protocol with
  | none =>
    have hv : layer_set_field layer field = none := by simp [layer_set_field, hp]
    exact iff_of_true hv (Or.inl rfl)
  | some p =>
    cases hf : p.fields.find? (fun pf => pf.name == field.name) with
    | none =>
      have hv : layer_set_field layer field = none := by simp [layer_set_field, hp, hf]
      exact iff_of_true hv (Or.inr (Or.inl ⟨p, rfl, hf⟩))
    | some pf =>
      by_cases hb : pf.offset + pf.size ≤ layer.segment_size
      · have hv : layer_set_field layer field ≠ none := by
          simp [layer_set_field, hp, hf, hb]
        refine iff_of_false hv ?_
        rintro (h1 | ⟨p', hp', hf'⟩ | ⟨p', pf', hp', hf', hlt⟩)
        · exact Option.noConfusion h1
        · obtain rfl : p = p' := Option.some.inj hp'
          rw [hf] at hf'
          exact Option.noConfusion hf'
        · obtain rfl : p = p' := Option.some.inj hp'
          rw [hf] at hf'
          obtain rfl : pf = pf' := Option.some.inj hf'
          omega
      · have hv : layer_set_field layer field = none := by
          simp [layer_set_field, hp, hf, hb]
        exact iff_of_true hv (Or.inr (Or.inr ⟨p, pf, rfl, hf, by omega⟩))

/-- Claim C8: write/read round-trip — on a well-formed layer with a
protocol, for a field known to that protocol whose declared width is
respected (the value fits in the field's byte width; byte order is the
network big-endian order used by both operations), a successful
`layer_set_field` followed by `layer_create_field` for the same name
returns exactly the value just written. -/
theorem layer_set_create_field_roundtrip (layer l' : layer_t) (field : field_t)
    (proto : protocol_t) (pf : protofield_t)
    (hwf : layer.segment.length = layer.segment_size)
    (hp : layer.protocol = some proto)
    (hf : proto.fields.find? (fun x => x.name == field.name) = some pf)
    (hv : field.value < 256 ^ pf.size)
    (hs : layer_set_field layer field = some l') :
    layer_create_field l' field.name = some { name := field.name, value := field.value } := by
  have hshape : ∃ hb : pf.offset + pf.size ≤ layer.segment_size,
      l' = { protocol := some proto
             segment := writeBytes layer.segment pf.offset (encodeBE pf.size field.value)
             header_size := layer.header_size
             segment_size := layer.segment_size
             nested := layer.nested } := by
    unfold layer_set_field at hs
    rw [hp] at hs
    simp only [hf] at hs
    by_cases hb : pf.offset + pf.size ≤ layer.segment_size
    · rw [if_pos hb] at hs
      exact ⟨hb, (Option.some.inj hs).symm⟩
    · rw [if_neg hb] at hs
      exact Option.noConfusion hs
  obtain ⟨hb, rfl⟩ := hshape
  unfold layer_create_field
  simp only [hp, hf]
  have h1 : readBytes
      (writeBytes layer.segment pf.offset (encodeBE pf.size field.value)) pf.offset pf.size
      = encodeBE pf.size field.value := by
    have h2 := readBytes_writeBytes layer.segment pf.offset (encodeBE pf.size field.value)
      (by rw [encodeBE_length]; omega)
    rw [encodeBE_length] at h2
    exact h2
  rw [h1, decodeBE_encodeBE _ _ hv]

/-- Witness for `layer_set_create_field_roundtrip`: writing value 777
into the 2-byte field "id" of a 4-byte segment and reading it back
returns 777. -/
theorem layer_set_create_field_roundtrip_witness :
    layer_create_field
      (layer_t.mk (some (protocol_t.mk "test" [protofield_t.mk "id" 0 2])) [3, 9, 0, 0] 2 4 false)
      "id" = some (field_t.mk "id" 777) :=
  layer_set_create_field_roundtrip
    (layer_t.mk (some (protocol_t.mk "test" [protofield_t.mk "id" 0 2])) [0, 0, 0, 0] 2 4 false)
    (layer_t.mk (some (protocol_t.mk "test" [protofield_t.mk "id" 0 2])) [3, 9, 0, 0] 2 4 false)
    (field_t.mk "id" 777) (protocol_t.mk "test" [protofield_t.mk "id" 0 2])
    (protofield_t.mk "id" 0 2) rfl rfl (by decide) (by decide) (by decide)

/-- Counterexample to claim C9 as stated: the plain setter
`layer_set_header_size`, which performs no validation, breaks the
invariant `header_size ≤ segment_size` — setting a header size of 1 on
a freshly created layer (whose segment size is 0) leaves the layer
with `header_size > segment_size`. -/
theorem layer_setter_breaks_inv :
    ¬ layer_inv (layer_set_header_size layer_create 1) := fun h =>
  Nat.not_succ_le_zero 0 h

/-- Claim C9 (amended): the invariant `header_size ≤ segment_size`
holds after `layer_create` and is preserved by `layer_set_protocol`,
`layer_set_segment`, `layer_set_field`, `layer_write_payload`, and by
`layer_set_payload` on a well-formed payload layer (one with
`header_size = 0`); the plain setters `layer_set_header_size` and
`layer_set_segment_size` perform no validation and can violate it. -/
theorem layer_inv_established_and_preserved :
    layer_inv layer_create
    ∧ (∀ (l : layer_t) (p : Option protocol_t),
        layer_inv l → layer_inv (layer_set_protocol l p))
    ∧ (∀ (l : layer_t) (s : List Nat),
        layer_inv l → layer_inv (layer_set_segment l s))
    ∧ (∀ (l l' : layer_t) (f : field_t),
        layer_inv l → layer_set_field l f = some l' → layer_inv l')
    ∧ (∀ (l l' : layer_t) (payload : List Nat) (offset : Nat),
        layer_inv l → layer_write_payload l payload offset = some l' → layer_inv l')
    ∧ (∀ (l l' : layer_t) (payload : List Nat),
        l.header_size = 0 → layer_set_payload l payload = some l' → layer_inv l') := by
  refine ⟨Nat.le_refl 0, ?_, ?_, ?_, ?_, ?_⟩
  · intro l p h; exact h
  · intro l s h; exact h
  · intro l l' f h hs
    unfold layer_set_field at hs
    cases hp : l.protocol with
    | none => rw [hp] at hs; exact Option.noConfusion hs
    | some proto =>
      rw [hp] at hs
      cases hf : proto.fields.find? (fun pf => pf.name == f.name) with
      | none =>
        simp only [hf] at hs
        exact Option.noConfusion hs
      | some pf =>
        simp only [hf] at hs
        by_cases hb : pf.offset + pf.size ≤ l.segment_size
        · rw [if_pos hb] at hs
          obtain rfl := (Option.some.inj hs).symm
          exact h
        · rw [if_neg hb] at hs
          exact Option.noConfusion hs
  · intro l l' payload offset h hs
    unfold layer_write_payload at hs
    by_cases hn : l.nested
    · simp [hn] at hs
    · simp only [hn, if_false, Bool.false_eq_true] at hs
      obtain rfl := (Option.some.inj hs).symm
      unfold layer_inv at h
      unfold layer_inv
      simp only []
      omega
  · intro l l' payload hh hs
    unfold layer_set_payload at hs
    cases hp : l.protocol with
    | some p => rw [hp] at hs; exact Option.noConfusion hs
    | none =>
      rw [hp] at hs
      obtain rfl := (Option.some.inj hs).symm
      unfold layer_inv
      simp only []
      omega

/-- Witness for `layer_inv_established_and_preserved`: the preservation
conjunct for `layer_set_segment` applied to the freshly created layer,
whose invariant the first conjunct supplies. -/
theorem layer_inv_established_and_preserved_witness :
    layer_inv (layer_set_segment layer_create [5, 6]) :=
  layer_inv_established_and_preserved.2.2.1 layer_create [5, 6]
    layer_inv_established_and_preserved.1
